import Mathlib

/-
Verification of the Vita OSAL layer of pthread-embedded
(src/platform/vita/vita_osal.c): the thread registry, the cancellable
wait loops, the priority translator and the TLS slot allocator, shallowly
embedded in Lean.  Native kernel calls (thread creation, event flags,
semaphores, the process clock) are modelled as explicit oracle
parameters; machine integers are modelled as Int/Nat with explicit
wrap-around where the C code relies on it.
-/

set_option maxRecDepth 40000

namespace VitaOsal

/-- Result codes of the OSAL (`pte_osResult` in `pte_types.h`). -/
inductive pte_osResult where
  | PTE_OS_OK
  | PTE_OS_NO_RESOURCES
  | PTE_OS_GENERAL_FAILURE
  | PTE_OS_TIMEOUT
  | PTE_OS_INTERRUPTED
  | PTE_OS_INVALID_PARAM
  deriving DecidableEq, Repr

open pte_osResult

/-! ## Priority translator -/

/-- `pte_osThreadGetDefaultPriority`: `return 160;` -/
def pte_osThreadGetDefaultPriority : Int := 160

/-- `pte_osThreadGetMinPriority`: `return pte_osThreadGetDefaultPriority()-32;` -/
def pte_osThreadGetMinPriority : Int := pte_osThreadGetDefaultPriority - 32

/-- `pte_osThreadGetMaxPriority`: `return pte_osThreadGetDefaultPriority()+31;` -/
def pte_osThreadGetMaxPriority : Int := pte_osThreadGetDefaultPriority + 31

/-- `invert_priority`:
`return (pte_osThreadGetMinPriority() - priority) + pte_osThreadGetMaxPriority();` -/
def invert_priority (priority : Int) : Int :=
  (pte_osThreadGetMinPriority - priority) + pte_osThreadGetMaxPriority

/-! ## Constants of the registry and kernel error codes -/

def MAX_THREADS : Nat := 256

def PTHREAD_EVID_CANCEL : Nat := 1

def DEFAULT_STACK_SIZE_BYTES : Int := 4096

/-- `SCE_KERNEL_ERROR_NO_MEMORY` (0x80020008 read as a signed 32-bit int). -/
def SCE_KERNEL_ERROR_NO_MEMORY : Int := 2147614728 - 4294967296

/-- `SCE_KERNEL_ERROR_WAIT_TIMEOUT` (0x80028005 read as a signed 32-bit int). -/
def SCE_KERNEL_ERROR_WAIT_TIMEOUT : Int := 2147647493 - 4294967296

/-! ## Thread registry -/

/-- One entry of `thread_list` (`struct pspThreadData`).  `SceUID`s are
modelled as `Int`; the `entryPoint` and `argv` pointers are opaque and
modelled as `Nat` with `0` for `NULL`. -/
structure pspThreadData where
  threadId : Int
  entryPoint : Nat
  argv : Nat
  evid : Int
  deriving DecidableEq, Repr

/-- An all-zero registry entry (what `memset(..., 0, ...)` produces). -/
def freeSlot : pspThreadData := ⟨0, 0, 0, 0⟩

/-- The `for (i = start; ...; i++) if (p(thread_list[i])) return i;` scan
shared by `pspFindFreeThreadSlot` and `pspGetThreadIndex`: the list holds
the entries from index `i` on. -/
def scanFrom (p : pspThreadData → Bool) : List pspThreadData → Nat → Option Nat
  | [], _ => none
  | d :: rest, i => if p d then some i else scanFrom p rest (i + 1)

/-- `pspFindFreeThreadSlot`: scan indices `1 .. MAX_THREADS-1` for
`threadId == 0`, returning the index or `-1`. -/
def pspFindFreeThreadSlot (tl : List pspThreadData) : Int :=
  match scanFrom (fun d => d.threadId = 0) (tl.drop 1) 1 with
  | some i => (i : Int)
  | none => -1

/-- `pspGetThreadIndex`: scan indices `0 .. MAX_THREADS-1` for
`threadId == threadId`, returning the index or `-1`. -/
def pspGetThreadIndex (tl : List pspThreadData) (threadId : Int) : Int :=
  match scanFrom (fun d => d.threadId = threadId) tl 0 with
  | some i => (i : Int)
  | none => -1

/-- `pte_osInit`: `memset(thread_list, 0, sizeof(thread_list))`, then
slot 0 gets the calling thread's id and a fresh event flag.  The ids read
from the kernel are passed in as `callerId` and `initEvid`. -/
def pte_osInit (callerId initEvid : Int) : List pspThreadData :=
  (List.replicate MAX_THREADS freeSlot).set 0
    { freeSlot with threadId := callerId, evid := initEvid }

/-! ### Scan lemmas -/

theorem scanFrom_eq_some (p : pspThreadData → Bool) :
    ∀ (l : List pspThreadData) (i j : Nat), scanFrom p l i = some j →
      ∃ n, j = i + n ∧ n < l.length ∧
        (∃ d, l[n]? = some d ∧ p d = true) ∧
        (∀ m, m < n → ∀ d, l[m]? = some d → p d = false) := by
  intro l
  induction l with
  | nil => intro i j h; simp [scanFrom] at h
  | cons d rest ih =>
    intro i j h
    by_cases hd : p d
    · refine ⟨0, ?_, by simp, ⟨d, by simp, hd⟩, by omega⟩
      simp [scanFrom, hd] at h
      omega
    · simp only [scanFrom, hd, if_neg, Bool.false_eq_true, if_false] at h
      obtain ⟨n, hn, hlen, ⟨e, he, hpe⟩, hmin⟩ := ih (i + 1) j h
      refine ⟨n + 1, by omega, by simp; omega, ⟨e, by simpa using he, hpe⟩, ?_⟩
      intro m hm f hf
      cases m with
      | zero =>
        simp at hf
        simpa [← hf] using hd
      | succ m =>
        exact hmin m (by omega) f (by simpa using hf)

theorem scanFrom_eq_none (p : pspThreadData → Bool) :
    ∀ (l : List pspThreadData) (i : Nat), scanFrom p l i = none ↔
      ∀ d ∈ l, p d = false := by
  intro l
  induction l with
  | nil => intro i; simp [scanFrom]
  | cons d rest ih =>
    intro i
    by_cases hd : p d
    · simp [scanFrom, hd]
    · simp only [scanFrom, hd, Bool.false_eq_true, if_false]
      rw [ih (i + 1)]
      simp [hd]

/-- If `pspGetThreadIndex` succeeds, the found slot holds the requested
thread id. -/
theorem pspGetThreadIndex_spec (tl : List pspThreadData) (tid : Int)
    (h : 0 ≤ pspGetThreadIndex tl tid) :
    ∃ d, tl[(pspGetThreadIndex tl tid).toNat]? = some d ∧ d.threadId = tid := by
  unfold pspGetThreadIndex at h ⊢
  cases hs : scanFrom (fun d => d.threadId = tid) tl 0 with
  | none => simp only [hs] at h; exact absurd h (by decide)
  | some j =>
    obtain ⟨n, hn, hlen, ⟨d, hd, hpd⟩, _⟩ :=
      scanFrom_eq_some (fun d => d.threadId = tid) tl 0 j hs
    refine ⟨d, ?_, by simpa using hpd⟩
    simp only [hs, Int.toNat_natCast]
    have hjn : j = n := by omega
    rw [hjn]
    exact hd

/-- If `pspFindFreeThreadSlot` succeeds, the result is in `[1, tl.length)`,
the found slot is free, and no earlier slot of `[1, result)` is. -/
theorem pspFindFreeThreadSlot_spec (tl : List pspThreadData)
    (h : 0 ≤ pspFindFreeThreadSlot tl) :
    1 ≤ pspFindFreeThreadSlot tl ∧
    (pspFindFreeThreadSlot tl).toNat < tl.length ∧
    (∃ d, tl[(pspFindFreeThreadSlot tl).toNat]? = some d ∧ d.threadId = 0) ∧
    (∀ m, 1 ≤ m → m < (pspFindFreeThreadSlot tl).toNat →
      ∀ d, tl[m]? = some d → d.threadId ≠ 0) := by
  unfold pspFindFreeThreadSlot at h ⊢
  cases hs : scanFrom (fun d => d.threadId = 0) (tl.drop 1) 1 with
  | none => simp only [hs] at h; exact absurd h (by decide)
  | some j =>
    obtain ⟨n, hn, hlen, ⟨d, hd, hpd⟩, hmin⟩ :=
      scanFrom_eq_some (fun d => d.threadId = 0) (tl.drop 1) 1 j hs
    have hdrop : ∀ k : Nat, (tl.drop 1)[k]? = tl[1 + k]? := by
      intro k; rw [List.getElem?_drop]
    have hlen' : (tl.drop 1).length = tl.length - 1 := by simp
    simp only [hs, Int.toNat_natCast]
    refine ⟨by omega, by omega, ⟨d, ?_, by simpa using hpd⟩, ?_⟩
    · have hd' : tl[1 + n]? = some d := by rw [← hdrop n]; exact hd
      rw [hn]
      exact hd'
    · intro m h1m hm e he
      have hm' : m - 1 < n := by omega
      have he' : (tl.drop 1)[m - 1]? = some e := by
        rw [hdrop (m - 1)]
        have : 1 + (m - 1) = m := by omega
        rw [this]
        exact he
      have := hmin (m - 1) hm' e he'
      simpa using this

/-- If `pspFindFreeThreadSlot` fails, every slot of index ≥ 1 is occupied,
and conversely. -/
theorem pspFindFreeThreadSlot_none (tl : List pspThreadData) :
    pspFindFreeThreadSlot tl = -1 ↔ ∀ d ∈ tl.drop 1, d.threadId ≠ 0 := by
  unfold pspFindFreeThreadSlot
  cases hs : scanFrom (fun d => d.threadId = 0) (tl.drop 1) 1 with
  | none =>
    rw [scanFrom_eq_none] at hs
    simpa using hs
  | some j =>
    obtain ⟨n, hn, hlen, ⟨d, hd, hpd⟩, _⟩ :=
      scanFrom_eq_some (fun d => d.threadId = 0) (tl.drop 1) 1 j hs
    simp only [hs]
    constructor
    · intro h; omega
    · intro h
      exact absurd (h d (List.getElem?_mem hd)) (by simpa using hpd)

/-- C1: Over the supported portable range `[min_priority, max_priority]`
with default 160, min 128 and max 191, the single mapping
`invert_priority p = (min_priority - p) + max_priority` is an involution,
so translating to the native scale and back is the identity. -/
theorem C1_priority_roundtrip (p : Int)
    (_hmin : pte_osThreadGetMinPriority ≤ p)
    (_hmax : p ≤ pte_osThreadGetMaxPriority) :
    pte_osThreadGetMinPriority = 128 ∧
    pte_osThreadGetMaxPriority = 191 ∧
    invert_priority (invert_priority p) = p := by
  refine ⟨rfl, rfl, ?_⟩
  simp [invert_priority, pte_osThreadGetMinPriority, pte_osThreadGetMaxPriority,
    pte_osThreadGetDefaultPriority]
  omega

/-- Witness for C1 at the default priority 160. -/
theorem C1_priority_roundtrip_witness :
    pte_osThreadGetMinPriority ≤ 160 ∧ (160 : Int) ≤ pte_osThreadGetMaxPriority ∧
    (pte_osThreadGetMinPriority = 128 ∧
     pte_osThreadGetMaxPriority = 191 ∧
     invert_priority (invert_priority 160) = 160) :=
  ⟨by decide, by decide, C1_priority_roundtrip 160 (by decide) (by decide)⟩

/-! ## Thread creation -/

/-- The values the native kernel hands back during one `pte_osThreadCreate`
call: the `SceUID` returned by `sceKernelCreateThread` (negative on
failure), the event flag id created for the new slot, and the event flag
id created by `pte_osInit` if the lazy-bootstrap path runs. -/
structure CreateNative where
  thid : Int
  newEvid : Int
  initEvid : Int
  deriving DecidableEq, Repr

/-- `pte_osThreadCreate`.  The caller's kernel thread id (read by
`sceKernelGetThreadId`) is `callerId`; `osn` carries the native results.
Returns the `pte_osResult`, the updated `thread_list`, and the value
stored through `ppte_osThreadHandle` (if any). -/
def pte_osThreadCreate (callerId : Int) (osn : CreateNative) (stackSize : Int)
    (entryPoint argvPtr : Nat) (tl : List pspThreadData) :
    pte_osResult × List pspThreadData × Option Int :=
  -- lazy bootstrap: pthread_create called by a non-pthread thread
  let tl1 := if pspGetThreadIndex tl callerId = -1
             then pte_osInit callerId osn.initEvid else tl
  let _stackSize := if stackSize < DEFAULT_STACK_SIZE_BYTES
                    then DEFAULT_STACK_SIZE_BYTES else stackSize
  let index := pspFindFreeThreadSlot tl1
  if index < 0 then
    (PTE_OS_NO_RESOURCES, tl1, none)
  else if osn.thid < 0 then
    if osn.thid = SCE_KERNEL_ERROR_NO_MEMORY then
      (PTE_OS_NO_RESOURCES, tl1, none)
    else
      (PTE_OS_GENERAL_FAILURE, tl1, none)
  else
    (PTE_OS_OK,
     tl1.set index.toNat
       { threadId := osn.thid, entryPoint := entryPoint,
         argv := argvPtr, evid := osn.newEvid },
     some osn.thid)

/-- A registry for concrete tests: slot 0 is the bootstrap thread
(id 1, event flag 10), slot 1 a running pthread (id 7, entry 3, arg 4,
event flag 11), the remaining 254 slots free. -/
def tlTwoThreads : List pspThreadData :=
  ⟨1, 0, 0, 10⟩ :: ⟨7, 3, 4, 11⟩ :: List.replicate 254 freeSlot

/-- A completely full registry whose 256 occupants are threads
`1000, 1001, ..., 1255`. -/
def tlFull : List pspThreadData :=
  (List.range MAX_THREADS).map (fun i => ⟨1000 + (i : Int), 3, 4, 100 + (i : Int)⟩)

/-- C4: the lazy-bootstrap path of `pte_osThreadCreate` erases the registry
entries of previously registered threads.  Concretely: with thread 7
registered in slot 1, a call by the unregistered native thread 99 re-runs
`pte_osInit`, which clears the whole `thread_list` before repopulating
only slot 0; afterwards thread 7 has no registry entry, violating the
frame property that other threads' entries are unchanged. -/
theorem C4_bootstrap_erases_registry :
    pspGetThreadIndex tlTwoThreads 7 = 1 ∧
    pspGetThreadIndex tlTwoThreads 99 = -1 ∧
    (pte_osThreadCreate 99 ⟨5, 6, 8⟩ 4096 11 22 tlTwoThreads).1 = PTE_OS_OK ∧
    pspGetThreadIndex (pte_osThreadCreate 99 ⟨5, 6, 8⟩ 4096 11 22 tlTwoThreads).2.1 7 = -1 := by
  refine ⟨by decide, by decide, by decide, by decide⟩

/-- C4 frame part: when the calling thread is already registered, a
successful `pte_osThreadCreate` changes no registry slot other than the
one newly reserved slot. -/
theorem create_frame_registered (callerId : Int) (osn : CreateNative)
    (stackSize : Int) (entryPoint argvPtr : Nat) (tl : List pspThreadData)
    (hreg : pspGetThreadIndex tl callerId ≠ -1) :
    ∀ j : Nat, (j : Int) ≠ pspFindFreeThreadSlot tl →
      (pte_osThreadCreate callerId osn stackSize entryPoint argvPtr tl).2.1[j]? = tl[j]? := by
  intro j hj
  unfold pte_osThreadCreate
  simp only [if_neg hreg]
  by_cases hidx : pspFindFreeThreadSlot tl < 0
  · simp [hidx]
  · by_cases hthid : osn.thid < 0
    · by_cases hmem : osn.thid = SCE_KERNEL_ERROR_NO_MEMORY
      · simp [hidx, hthid, hmem, SCE_KERNEL_ERROR_NO_MEMORY]
      · simp [hidx, hthid, hmem]
    · simp only [hidx, if_false, hthid]
      have hne : (pspFindFreeThreadSlot tl).toNat ≠ j := by omega
      simpa using List.getElem?_set_ne hne

/-- C6 (amended: the exhaustion consequence additionally requires the
calling thread to have a registry entry, since an unregistered caller
triggers the lazy bootstrap, which reinitializes the registry and then
succeeds): `pspFindFreeThreadSlot` never returns the reserved slot 0, and
either returns `-1` with every slot of `[1, 256)` occupied, or the
smallest index of `[1, 256)` whose `threadId` is the free sentinel 0;
consequently, a call of `pte_osThreadCreate` by a registered caller on a
registry whose 255 non-reserved slots are all occupied returns
`PTE_OS_NO_RESOURCES` and leaves the registry unchanged. -/
theorem C6_find_free_slot_exhaustion (tl : List pspThreadData)
    (hlen : tl.length = MAX_THREADS) :
    pspFindFreeThreadSlot tl ≠ 0 ∧
    ((pspFindFreeThreadSlot tl = -1 ∧
      (∀ j : Nat, 1 ≤ j → j < MAX_THREADS → ∀ d, tl[j]? = some d → d.threadId ≠ 0)) ∨
     (1 ≤ pspFindFreeThreadSlot tl ∧ pspFindFreeThreadSlot tl < (MAX_THREADS : Int) ∧
      (∃ d, tl[(pspFindFreeThreadSlot tl).toNat]? = some d ∧ d.threadId = 0) ∧
      (∀ m : Nat, 1 ≤ m → m < (pspFindFreeThreadSlot tl).toNat →
        ∀ d, tl[m]? = some d → d.threadId ≠ 0))) ∧
    ((∀ d ∈ tl.drop 1, d.threadId ≠ 0) →
      ∀ (callerId : Int) (osn : CreateNative) (stackSize : Int)
        (entryPoint argvPtr : Nat),
        pspGetThreadIndex tl callerId ≠ -1 →
        pte_osThreadCreate callerId osn stackSize entryPoint argvPtr tl =
          (PTE_OS_NO_RESOURCES, tl, none)) := by
  have hfull : ∀ (hf : ∀ d ∈ tl.drop 1, d.threadId ≠ 0),
      ∀ (callerId : Int) (osn : CreateNative) (stackSize : Int)
        (entryPoint argvPtr : Nat),
        pspGetThreadIndex tl callerId ≠ -1 →
        pte_osThreadCreate callerId osn stackSize entryPoint argvPtr tl =
          (PTE_OS_NO_RESOURCES, tl, none) := by
    intro hf callerId osn stackSize entryPoint argvPtr hreg
    have hneg : pspFindFreeThreadSlot tl = -1 :=
      (pspFindFreeThreadSlot_none tl).mpr hf
    unfold pte_osThreadCreate
    simp [if_neg hreg, hneg]
  by_cases h : 0 ≤ pspFindFreeThreadSlot tl
  · obtain ⟨h1, h2, h3, h4⟩ := pspFindFreeThreadSlot_spec tl h
    refine ⟨by omega, Or.inr ⟨h1, by omega, h3, h4⟩, hfull⟩
  · have hneg : pspFindFreeThreadSlot tl = -1 := by
      unfold pspFindFreeThreadSlot at h ⊢
      cases hs : scanFrom (fun d => d.threadId = 0) (tl.drop 1) 1 with
      | none => rfl
      | some j =>
        simp only [hs] at h
        exact absurd (show (0 : Int) ≤ (j : Int) from Int.natCast_nonneg j) h
    have hocc := (pspFindFreeThreadSlot_none tl).mp hneg
    refine ⟨by omega, Or.inl ⟨hneg, ?_⟩, hfull⟩
    intro j h1j hjlen d hd hd0
    have hd' : (tl.drop 1)[j - 1]? = some d := by
      rw [List.getElem?_drop]
      have : 1 + (j - 1) = j := by omega
      rw [this]
      exact hd
    exact absurd hd0 (hocc d (List.getElem?_mem hd'))

/-- Witness for C6 on the full registry `tlFull`, whose occupants include
the caller 1000 in slot 0. -/
theorem C6_find_free_slot_exhaustion_witness :
    tlFull.length = MAX_THREADS ∧
    (pspFindFreeThreadSlot tlFull ≠ 0 ∧
     ((pspFindFreeThreadSlot tlFull = -1 ∧
       (∀ j : Nat, 1 ≤ j → j < MAX_THREADS → ∀ d, tlFull[j]? = some d → d.threadId ≠ 0)) ∨
      (1 ≤ pspFindFreeThreadSlot tlFull ∧ pspFindFreeThreadSlot tlFull < (MAX_THREADS : Int) ∧
       (∃ d, tlFull[(pspFindFreeThreadSlot tlFull).toNat]? = some d ∧ d.threadId = 0) ∧
       (∀ m : Nat, 1 ≤ m → m < (pspFindFreeThreadSlot tlFull).toNat →
         ∀ d, tlFull[m]? = some d → d.threadId ≠ 0))) ∧
     ((∀ d ∈ tlFull.drop 1, d.threadId ≠ 0) →
       ∀ (callerId : Int) (osn : CreateNative) (stackSize : Int)
         (entryPoint argvPtr : Nat),
         pspGetThreadIndex tlFull callerId ≠ -1 →
         pte_osThreadCreate callerId osn stackSize entryPoint argvPtr tlFull =
           (PTE_OS_NO_RESOURCES, tlFull, none))) :=
  ⟨by decide, C6_find_free_slot_exhaustion tlFull (by decide)⟩

/-- Counterexample to C6 as stated: on the full registry `tlFull`, a call
by the unregistered native thread 999 does not return
`PTE_OS_NO_RESOURCES` and does not leave the registry unchanged — the
lazy bootstrap clears all 256 slots first. -/
theorem C6_counterexample :
    (∀ d ∈ tlFull.drop 1, d.threadId ≠ 0) ∧
    (pte_osThreadCreate 999 ⟨5, 6, 8⟩ 4096 11 22 tlFull).1 ≠ PTE_OS_NO_RESOURCES ∧
    (pte_osThreadCreate 999 ⟨5, 6, 8⟩ 4096 11 22 tlFull).2.1 ≠ tlFull := by
  refine ⟨by decide, by decide, by decide⟩

/-- C8 (amended: requires the calling thread to have a registry entry,
since an unregistered caller's lazy bootstrap reinitializes the registry
before the native creation is attempted): when `sceKernelCreateThread`
fails, the registry is exactly its pre-call state, the found slot is
still free, no handle is stored, and the result is `PTE_OS_NO_RESOURCES`
precisely for the no-memory native error and `PTE_OS_GENERAL_FAILURE`
for every other native error. -/
theorem C8_create_native_failure (callerId : Int) (osn : CreateNative)
    (stackSize : Int) (entryPoint argvPtr : Nat) (tl : List pspThreadData)
    (hreg : pspGetThreadIndex tl callerId ≠ -1)
    (hfree : 0 ≤ pspFindFreeThreadSlot tl)
    (hfail : osn.thid < 0) :
    (pte_osThreadCreate callerId osn stackSize entryPoint argvPtr tl).2.1 = tl ∧
    (∃ d, tl[(pspFindFreeThreadSlot tl).toNat]? = some d ∧ d.threadId = 0) ∧
    ((pte_osThreadCreate callerId osn stackSize entryPoint argvPtr tl).1 =
        PTE_OS_NO_RESOURCES ↔ osn.thid = SCE_KERNEL_ERROR_NO_MEMORY) ∧
    (osn.thid ≠ SCE_KERNEL_ERROR_NO_MEMORY →
      (pte_osThreadCreate callerId osn stackSize entryPoint argvPtr tl).1 =
        PTE_OS_GENERAL_FAILURE) ∧
    (pte_osThreadCreate callerId osn stackSize entryPoint argvPtr tl).2.2 = none := by
  obtain ⟨_, _, hslot, _⟩ := pspFindFreeThreadSlot_spec tl hfree
  have hnneg : ¬ pspFindFreeThreadSlot tl < 0 := by omega
  unfold pte_osThreadCreate
  simp only [if_neg hreg, if_neg hnneg, if_pos hfail]
  by_cases hmem : osn.thid = SCE_KERNEL_ERROR_NO_MEMORY
  · simp [hmem]
    exact hslot
  · simp [hmem]
    exact hslot

/-- Witness for C8: native creation fails with the no-memory error while
the registered bootstrap thread 1 creates on `tlTwoThreads`. -/
theorem C8_create_native_failure_witness :
    pspGetThreadIndex tlTwoThreads 1 ≠ -1 ∧
    0 ≤ pspFindFreeThreadSlot tlTwoThreads ∧
    (SCE_KERNEL_ERROR_NO_MEMORY : Int) < 0 ∧
    ((pte_osThreadCreate 1 ⟨SCE_KERNEL_ERROR_NO_MEMORY, 6, 8⟩ 4096 11 22 tlTwoThreads).2.1 = tlTwoThreads ∧
     (∃ d, tlTwoThreads[(pspFindFreeThreadSlot tlTwoThreads).toNat]? = some d ∧ d.threadId = 0) ∧
     ((pte_osThreadCreate 1 ⟨SCE_KERNEL_ERROR_NO_MEMORY, 6, 8⟩ 4096 11 22 tlTwoThreads).1 =
         PTE_OS_NO_RESOURCES ↔ (⟨SCE_KERNEL_ERROR_NO_MEMORY, 6, 8⟩ : CreateNative).thid = SCE_KERNEL_ERROR_NO_MEMORY) ∧
     ((⟨SCE_KERNEL_ERROR_NO_MEMORY, 6, 8⟩ : CreateNative).thid ≠ SCE_KERNEL_ERROR_NO_MEMORY →
       (pte_osThreadCreate 1 ⟨SCE_KERNEL_ERROR_NO_MEMORY, 6, 8⟩ 4096 11 22 tlTwoThreads).1 =
         PTE_OS_GENERAL_FAILURE) ∧
     (pte_osThreadCreate 1 ⟨SCE_KERNEL_ERROR_NO_MEMORY, 6, 8⟩ 4096 11 22 tlTwoThreads).2.2 = none) :=
  ⟨by decide, by decide, by decide,
   C8_create_native_failure 1 ⟨SCE_KERNEL_ERROR_NO_MEMORY, 6, 8⟩ 4096 11 22 tlTwoThreads
     (by decide) (by decide) (by decide)⟩

/-- Counterexample to C8 as stated: the unregistered native thread 99
calls `pte_osThreadCreate` on `tlTwoThreads` and the native creation
fails with a generic error; the error is mapped to
`PTE_OS_GENERAL_FAILURE` as claimed, but the registry is not left in its
pre-call state — the lazy bootstrap already cleared it. -/
theorem C8_counterexample :
    (pte_osThreadCreate 99 ⟨-1, 6, 8⟩ 4096 11 22 tlTwoThreads).1 = PTE_OS_GENERAL_FAILURE ∧
    (pte_osThreadCreate 99 ⟨-1, 6, 8⟩ 4096 11 22 tlTwoThreads).2.1 ≠ tlTwoThreads := by
  refine ⟨by decide, by decide⟩

/-! ## Cancellable waits

Both cancellable waits are polling loops over native kernel calls.  The
kernel's responses are modelled as oracles indexed by the iteration
number: `flags i e` is the bit pattern `sceKernelPollEventFlag` reports
for event flag `e` in iteration `i`, `waitEnd h i` / `semWait s i` the
result of `sceKernelWaitThreadEndCB h` / `sceKernelWaitSema s`, and
`nowT i` the `sceKernelGetProcessTimeLow` reading at iteration `i`'s
deadline check.  The loops are given fuel; a result of `none` means the
loop was still running when the fuel ran out.  The second component of a
loop's result counts how many native waits were attempted. -/

/-- 32-bit unsigned subtraction `a - b` as computed on `SceUInt32`. -/
def sub32 (a b : Nat) : Nat :=
  ((a % 4294967296) + 4294967296 - (b % 4294967296)) % 4294967296

/-- The guard `sceKernelGetProcessTimeLow() - start > (*pTimeout) * 1000`
of `pte_osSemaphoreCancellablePend`, skipped when `pTimeout` is `NULL`;
the multiplication wraps at 32 bits like the C `unsigned int` one. -/
def deadlineHit (pTimeout : Option Nat) (now start : Nat) : Bool :=
  match pTimeout with
  | none => false
  | some t => decide (sub32 now start > (t * 1000) % 4294967296)

/-- The polling loop of `pte_osThreadWaitForEnd`: poll the cancellation
bit, return `PTE_OS_INTERRUPTED` if set, otherwise wait for the thread to
end with a short timeout; on a native timeout loop again, on another
native error return `PTE_OS_GENERAL_FAILURE`, on success return
`PTE_OS_OK`. -/
def waitForEndLoop (bits : Nat → Nat) (waitRes : Nat → Int) :
    Nat → Nat → Option pte_osResult × Nat
  | 0, _ => (none, 0)
  | fuel + 1, i =>
    if bits i &&& PTHREAD_EVID_CANCEL ≠ 0 then
      (some PTE_OS_INTERRUPTED, 0)
    else if waitRes i < 0 then
      if waitRes i = SCE_KERNEL_ERROR_WAIT_TIMEOUT then
        let r := waitForEndLoop bits waitRes fuel (i + 1)
        (r.1, r.2 + 1)
      else
        (some PTE_OS_GENERAL_FAILURE, 1)
    else
      (some PTE_OS_OK, 1)

/-- The polling loop of `pte_osSemaphoreCancellablePend`: poll the
cancellation bit, return `PTE_OS_INTERRUPTED` if set, otherwise poll the
semaphore; a non-timeout native error returns `PTE_OS_GENERAL_FAILURE`, a
success breaks out with `PTE_OS_OK`, and after a native timeout the
caller-supplied overall deadline is checked before looping. -/
def semPendLoop (bits : Nat → Nat) (semRes : Nat → Int) (nowT : Nat → Nat)
    (start : Nat) (pTimeout : Option Nat) :
    Nat → Nat → Option pte_osResult × Nat
  | 0, _ => (none, 0)
  | fuel + 1, i =>
    if bits i &&& PTHREAD_EVID_CANCEL ≠ 0 then
      (some PTE_OS_INTERRUPTED, 0)
    else if semRes i < 0 then
      if semRes i ≠ SCE_KERNEL_ERROR_WAIT_TIMEOUT then
        (some PTE_OS_GENERAL_FAILURE, 1)
      else if deadlineHit pTimeout (nowT i) start then
        (some PTE_OS_TIMEOUT, 1)
      else
        let r := semPendLoop bits semRes nowT start pTimeout fuel (i + 1)
        (r.1, r.2 + 1)
    else
      (some PTE_OS_OK, 1)

/-- `pte_osThreadWaitForEnd`.  The function first resolves the event flag
of the CALLING thread (`thread_list[pspGetThreadIndex(sceKernelGetThreadId())].evid`);
an unregistered caller makes that access out of bounds, modelled as
`none`.  On success the result carries the loop's outcome, the number of
native waits attempted, and the event flag id that was polled. -/
def pte_osThreadWaitForEnd (tl : List pspThreadData)
    (callerId threadHandle : Int) (flags : Nat → Int → Nat)
    (waitEnd : Int → Nat → Int) (fuel : Nat) :
    Option (Option pte_osResult × Nat × Int) :=
  let idx := pspGetThreadIndex tl callerId
  if idx < 0 then none
  else
    match tl[idx.toNat]? with
    | none => none
    | some d =>
      let r := waitForEndLoop (fun i => flags i d.evid)
        (fun i => waitEnd threadHandle i) fuel 0
      some (r.1, r.2, d.evid)

/-- `pte_osSemaphoreCancellablePend`.  `start` is the
`sceKernelGetProcessTimeLow()` reading taken on entry.  As in
`pte_osThreadWaitForEnd`, the event flag of the calling thread is
resolved first (out of bounds for an unregistered caller, modelled as
`none`). -/
def pte_osSemaphoreCancellablePend (tl : List pspThreadData)
    (callerId semHandle : Int) (flags : Nat → Int → Nat)
    (semWait : Int → Nat → Int) (nowT : Nat → Nat) (start : Nat)
    (pTimeout : Option Nat) (fuel : Nat) :
    Option (Option pte_osResult × Nat × Int) :=
  let idx := pspGetThreadIndex tl callerId
  if idx < 0 then none
  else
    match tl[idx.toNat]? with
    | none => none
    | some d =>
      let r := semPendLoop (fun i => flags i d.evid)
        (fun i => semWait semHandle i) nowT start pTimeout fuel 0
      some (r.1, r.2, d.evid)

/-! ### Loop lemmas -/

theorem waitForEndLoop_interrupted (bits : Nat → Nat) (waitRes : Nat → Int) :
    ∀ (k i fuel : Nat), k < fuel →
      (∀ j, j < k → bits (i + j) &&& PTHREAD_EVID_CANCEL = 0) →
      (∀ j, j < k → waitRes (i + j) = SCE_KERNEL_ERROR_WAIT_TIMEOUT) →
      bits (i + k) &&& PTHREAD_EVID_CANCEL ≠ 0 →
      waitForEndLoop bits waitRes fuel i = (some PTE_OS_INTERRUPTED, k) := by
  intro k
  induction k with
  | zero =>
    intro i fuel hfuel _ _ hset
    obtain ⟨f, rfl⟩ : ∃ f, fuel = f + 1 := ⟨fuel - 1, by omega⟩
    simp only [waitForEndLoop]
    rw [if_pos (by simpa using hset)]
  | succ k ih =>
    intro i fuel hfuel hclear hw hset
    obtain ⟨f, rfl⟩ : ∃ f, fuel = f + 1 := ⟨fuel - 1, by omega⟩
    have hb0 : ¬ bits i &&& PTHREAD_EVID_CANCEL ≠ 0 := by
      simpa using hclear 0 (by omega)
    have hw0 : waitRes i = SCE_KERNEL_ERROR_WAIT_TIMEOUT := by
      simpa using hw 0 (by omega)
    have hneg : waitRes i < 0 := by
      rw [hw0]; unfold SCE_KERNEL_ERROR_WAIT_TIMEOUT; omega
    have hrec := ih (i + 1) f (by omega)
      (fun j hj => by
        have := hclear (j + 1) (by omega)
        simpa [Nat.add_assoc, Nat.add_comm 1 j] using this)
      (fun j hj => by
        have := hw (j + 1) (by omega)
        simpa [Nat.add_assoc, Nat.add_comm 1 j] using this)
      (by
        have := hset
        simpa [Nat.add_assoc, Nat.add_comm 1 k] using this)
    simp only [waitForEndLoop]
    rw [if_neg hb0, if_pos hneg, if_pos hw0, hrec]

theorem semPendLoop_interrupted (bits : Nat → Nat) (semRes : Nat → Int)
    (nowT : Nat → Nat) (start : Nat) (pTimeout : Option Nat) :
    ∀ (k i fuel : Nat), k < fuel →
      (∀ j, j < k → bits (i + j) &&& PTHREAD_EVID_CANCEL = 0) →
      (∀ j, j < k → semRes (i + j) = SCE_KERNEL_ERROR_WAIT_TIMEOUT) →
      (∀ j, j < k → deadlineHit pTimeout (nowT (i + j)) start = false) →
      bits (i + k) &&& PTHREAD_EVID_CANCEL ≠ 0 →
      semPendLoop bits semRes nowT start pTimeout fuel i =
        (some PTE_OS_INTERRUPTED, k) := by
  intro k
  induction k with
  | zero =>
    intro i fuel hfuel _ _ _ hset
    obtain ⟨f, rfl⟩ : ∃ f, fuel = f + 1 := ⟨fuel - 1, by omega⟩
    simp only [semPendLoop]
    rw [if_pos (by simpa using hset)]
  | succ k ih =>
    intro i fuel hfuel hclear hs hnd hset
    obtain ⟨f, rfl⟩ : ∃ f, fuel = f + 1 := ⟨fuel - 1, by omega⟩
    have hb0 : ¬ bits i &&& PTHREAD_EVID_CANCEL ≠ 0 := by
      simpa using hclear 0 (by omega)
    have hs0 : semRes i = SCE_KERNEL_ERROR_WAIT_TIMEOUT := by
      simpa using hs 0 (by omega)
    have hneg : semRes i < 0 := by
      rw [hs0]; unfold SCE_KERNEL_ERROR_WAIT_TIMEOUT; omega
    have hnwt : ¬ semRes i ≠ SCE_KERNEL_ERROR_WAIT_TIMEOUT := by simp [hs0]
    have hnd0 : ¬ deadlineHit pTimeout (nowT i) start = true := by
      simpa using hnd 0 (by omega)
    have hrec := ih (i + 1) f (by omega)
      (fun j hj => by
        have := hclear (j + 1) (by omega)
        simpa [Nat.add_assoc, Nat.add_comm 1 j] using this)
      (fun j hj => by
        have := hs (j + 1) (by omega)
        simpa [Nat.add_assoc, Nat.add_comm 1 j] using this)
      (fun j hj => by
        have := hnd (j + 1) (by omega)
        simpa [Nat.add_assoc, Nat.add_comm 1 j] using this)
      (by
        have := hset
        simpa [Nat.add_assoc, Nat.add_comm 1 k] using this)
    simp only [semPendLoop]
    rw [if_neg hb0, if_pos hneg, if_neg hnwt, if_neg hnd0, hrec]

theorem semPendLoop_timeout (bits : Nat → Nat) (semRes : Nat → Int)
    (nowT : Nat → Nat) (start t : Nat) :
    ∀ (k i fuel : Nat), k < fuel →
      (∀ j, j ≤ k → bits (i + j) &&& PTHREAD_EVID_CANCEL = 0) →
      (∀ j, j ≤ k → semRes (i + j) = SCE_KERNEL_ERROR_WAIT_TIMEOUT) →
      deadlineHit (some t) (nowT (i + k)) start = true →
      ∃ c, 1 ≤ c ∧ c ≤ k + 1 ∧
        semPendLoop bits semRes nowT start (some t) fuel i =
          (some PTE_OS_TIMEOUT, c) := by
  intro k
  induction k with
  | zero =>
    intro i fuel hfuel hclear hs hdl
    obtain ⟨f, rfl⟩ : ∃ f, fuel = f + 1 := ⟨fuel - 1, by omega⟩
    have hb0 : ¬ bits i &&& PTHREAD_EVID_CANCEL ≠ 0 := by
      simpa using hclear 0 (by omega)
    have hs0 : semRes i = SCE_KERNEL_ERROR_WAIT_TIMEOUT := by
      simpa using hs 0 (by omega)
    have hneg : semRes i < 0 := by
      rw [hs0]; unfold SCE_KERNEL_ERROR_WAIT_TIMEOUT; omega
    have hnwt : ¬ semRes i ≠ SCE_KERNEL_ERROR_WAIT_TIMEOUT := by simp [hs0]
    refine ⟨1, by omega, by omega, ?_⟩
    simp only [semPendLoop]
    rw [if_neg hb0, if_pos hneg, if_neg hnwt, if_pos (by simpa using hdl)]
  | succ k ih =>
    intro i fuel hfuel hclear hs hdl
    obtain ⟨f, rfl⟩ : ∃ f, fuel = f + 1 := ⟨fuel - 1, by omega⟩
    have hb0 : ¬ bits i &&& PTHREAD_EVID_CANCEL ≠ 0 := by
      simpa using hclear 0 (by omega)
    have hs0 : semRes i = SCE_KERNEL_ERROR_WAIT_TIMEOUT := by
      simpa using hs 0 (by omega)
    have hneg : semRes i < 0 := by
      rw [hs0]; unfold SCE_KERNEL_ERROR_WAIT_TIMEOUT; omega
    have hnwt : ¬ semRes i ≠ SCE_KERNEL_ERROR_WAIT_TIMEOUT := by simp [hs0]
    by_cases hd0 : deadlineHit (some t) (nowT i) start = true
    · refine ⟨1, by omega, by omega, ?_⟩
      simp only [semPendLoop]
      rw [if_neg hb0, if_pos hneg, if_neg hnwt, if_pos hd0]
    · obtain ⟨c, hc1, hck, hrec⟩ := ih (i + 1) f (by omega)
        (fun j hj => by
          have := hclear (j + 1) (by omega)
          simpa [Nat.add_assoc, Nat.add_comm 1 j] using this)
        (fun j hj => by
          have := hs (j + 1) (by omega)
          simpa [Nat.add_assoc, Nat.add_comm 1 j] using this)
        (by
          have := hdl
          simpa [Nat.add_assoc, Nat.add_comm 1 k] using this)
      refine ⟨c + 1, by omega, by omega, ?_⟩
      simp only [semPendLoop]
      rw [if_neg hb0, if_pos hneg, if_neg hnwt, if_neg hd0, hrec]

/-- C2: in both cancellable waits the calling thread's cancellation bit
is polled before the native wait of each iteration: if polls `0..k-1`
show the bit clear, the native waits time out, the overall deadline never
fires, and poll `k` shows the bit set, both operations return
`PTE_OS_INTERRUPTED` having attempted exactly `k` native waits — none in
iteration `k` itself.  With `k = 0` this is the claim's particular case:
a cancellation already pending when the wait begins yields
`PTE_OS_INTERRUPTED` with no native wait performed at all. -/
theorem C2_cancel_polled_before_wait (tl : List pspThreadData)
    (callerId threadHandle semHandle : Int) (d : pspThreadData)
    (flags : Nat → Int → Nat) (waitEnd semWait : Int → Nat → Int)
    (nowT : Nat → Nat) (start : Nat) (pTimeout : Option Nat) (k fuel : Nat)
    (hreg : 0 ≤ pspGetThreadIndex tl callerId)
    (hd : tl[(pspGetThreadIndex tl callerId).toNat]? = some d)
    (hfuel : k < fuel)
    (hclear : ∀ j, j < k → flags j d.evid &&& PTHREAD_EVID_CANCEL = 0)
    (hset : flags k d.evid &&& PTHREAD_EVID_CANCEL ≠ 0)
    (hw : ∀ j, j < k → waitEnd threadHandle j = SCE_KERNEL_ERROR_WAIT_TIMEOUT)
    (hs : ∀ j, j < k → semWait semHandle j = SCE_KERNEL_ERROR_WAIT_TIMEOUT)
    (hnd : ∀ j, j < k → deadlineHit pTimeout (nowT j) start = false) :
    pte_osThreadWaitForEnd tl callerId threadHandle flags waitEnd fuel =
      some (some PTE_OS_INTERRUPTED, k, d.evid) ∧
    pte_osSemaphoreCancellablePend tl callerId semHandle flags semWait
        nowT start pTimeout fuel =
      some (some PTE_OS_INTERRUPTED, k, d.evid) := by
  have hnneg : ¬ pspGetThreadIndex tl callerId < 0 := by omega
  constructor
  · unfold pte_osThreadWaitForEnd
    simp only [if_neg hnneg, hd]
    rw [waitForEndLoop_interrupted (fun i => flags i d.evid)
      (fun i => waitEnd threadHandle i) k 0 fuel hfuel
      (fun j hj => by simpa using hclear j hj)
      (fun j hj => by simpa using hw j hj)
      (by simpa using hset)]
  · unfold pte_osSemaphoreCancellablePend
    simp only [if_neg hnneg, hd]
    rw [semPendLoop_interrupted (fun i => flags i d.evid)
      (fun i => semWait semHandle i) nowT start pTimeout k 0 fuel hfuel
      (fun j hj => by simpa using hclear j hj)
      (fun j hj => by simpa using hs j hj)
      (fun j hj => by simpa using hnd j hj)
      (by simpa using hset)]

/-- Witness for C2 with `k = 0`: thread 7 (slot 1 of `tlTwoThreads`, event
flag 11) starts both waits with its cancellation bit already set. -/
theorem C2_cancel_polled_before_wait_witness :
    0 ≤ pspGetThreadIndex tlTwoThreads 7 ∧
    tlTwoThreads[(pspGetThreadIndex tlTwoThreads 7).toNat]? =
      some (⟨7, 3, 4, 11⟩ : pspThreadData) ∧
    (fun (_ : Nat) (_ : Int) => 1) 0 (⟨7, 3, 4, 11⟩ : pspThreadData).evid &&&
      PTHREAD_EVID_CANCEL ≠ 0 ∧
    (pte_osThreadWaitForEnd tlTwoThreads 7 1 (fun _ _ => 1) (fun _ _ => 0) 1 =
       some (some PTE_OS_INTERRUPTED, 0, (⟨7, 3, 4, 11⟩ : pspThreadData).evid) ∧
     pte_osSemaphoreCancellablePend tlTwoThreads 7 33 (fun _ _ => 1) (fun _ _ => 0)
         (fun _ => 0) 0 none 1 =
       some (some PTE_OS_INTERRUPTED, 0, (⟨7, 3, 4, 11⟩ : pspThreadData).evid)) :=
  ⟨by decide, by decide, by decide,
   C2_cancel_polled_before_wait tlTwoThreads 7 1 33 ⟨7, 3, 4, 11⟩
     (fun _ _ => 1) (fun _ _ => 0) (fun _ _ => 0) (fun _ => 0) 0 none 0 1
     (by decide) (by decide) (by decide)
     (fun j hj => absurd hj (Nat.not_lt_zero j))
     (by decide)
     (fun j hj => absurd hj (Nat.not_lt_zero j))
     (fun j hj => absurd hj (Nat.not_lt_zero j))
     (fun j hj => absurd hj (Nat.not_lt_zero j))⟩

/-- C3: if the caller-supplied deadline of `pte_osSemaphoreCancellablePend`
passes before any poll observes the cancellation bit — polls `0..k` all
show the bit clear, the native semaphore waits all time out, and at
iteration `k`'s deadline check the elapsed 32-bit process time exceeds
`*pTimeout * 1000` — the call returns `PTE_OS_TIMEOUT`, not
`PTE_OS_INTERRUPTED`.  The poll of iteration `k` precedes that iteration's
native wait and deadline check, so this covers a cancellation bit that
becomes set after the deadline passed but before the wait returned: it is
never re-examined on the timeout path. -/
theorem C3_timeout_precedes_cancellation (tl : List pspThreadData)
    (callerId semHandle : Int) (d : pspThreadData)
    (flags : Nat → Int → Nat) (semWait : Int → Nat → Int)
    (nowT : Nat → Nat) (start t k fuel : Nat)
    (hreg : 0 ≤ pspGetThreadIndex tl callerId)
    (hd : tl[(pspGetThreadIndex tl callerId).toNat]? = some d)
    (hfuel : k < fuel)
    (hclear : ∀ j, j ≤ k → flags j d.evid &&& PTHREAD_EVID_CANCEL = 0)
    (hsem : ∀ j, j ≤ k → semWait semHandle j = SCE_KERNEL_ERROR_WAIT_TIMEOUT)
    (hdl : deadlineHit (some t) (nowT k) start = true) :
    ∃ c, pte_osSemaphoreCancellablePend tl callerId semHandle flags semWait
        nowT start (some t) fuel = some (some PTE_OS_TIMEOUT, c, d.evid) := by
  have hnneg : ¬ pspGetThreadIndex tl callerId < 0 := by omega
  obtain ⟨c, _, _, hloop⟩ := semPendLoop_timeout (fun i => flags i d.evid)
    (fun i => semWait semHandle i) nowT start t k 0 fuel hfuel
    (fun j hj => by simpa using hclear j hj)
    (fun j hj => by simpa using hsem j hj)
    (by simpa using hdl)
  refine ⟨c, ?_⟩
  unfold pte_osSemaphoreCancellablePend
  simp only [if_neg hnneg, hd]
  rw [hloop]

/-- Witness for C3 with `k = 0`: thread 7 pends with a 1000 ms deadline;
2 000 000 µs of process time have elapsed when the first native timeout
returns, so the call times out at once. -/
theorem C3_timeout_precedes_cancellation_witness :
    0 ≤ pspGetThreadIndex tlTwoThreads 7 ∧
    tlTwoThreads[(pspGetThreadIndex tlTwoThreads 7).toNat]? =
      some (⟨7, 3, 4, 11⟩ : pspThreadData) ∧
    deadlineHit (some 1000) ((fun _ => 2000000) 0) 0 = true ∧
    (∃ c, pte_osSemaphoreCancellablePend tlTwoThreads 7 33 (fun _ _ => 0)
        (fun _ _ => SCE_KERNEL_ERROR_WAIT_TIMEOUT) (fun _ => 2000000) 0
        (some 1000) 1 =
      some (some PTE_OS_TIMEOUT, c, (⟨7, 3, 4, 11⟩ : pspThreadData).evid)) :=
  ⟨by decide, by decide, by decide,
   C3_timeout_precedes_cancellation tlTwoThreads 7 33 ⟨7, 3, 4, 11⟩
     (fun _ _ => 0) (fun _ _ => SCE_KERNEL_ERROR_WAIT_TIMEOUT)
     (fun _ => 2000000) 0 1000 0 1
     (by decide) (by decide) (by decide)
     (fun j _ => by simp)
     (fun j _ => rfl)
     (by decide)⟩

/-- C10: `pte_osThreadWaitForEnd` polls the event flag of the CALLING
thread: whatever handle is being waited on, the flag polled is the `evid`
of the registry slot whose `threadId` equals the caller's own id, and a
cancellation pending against the waiter makes the wait return
`PTE_OS_INTERRUPTED`. -/
theorem C10_wait_polls_callers_signal (tl : List pspThreadData)
    (callerId threadHandle : Int) (flags : Nat → Int → Nat)
    (waitEnd : Int → Nat → Int) (fuel : Nat)
    (hreg : 0 ≤ pspGetThreadIndex tl callerId) (hfuel : 0 < fuel) :
    ∃ d, tl[(pspGetThreadIndex tl callerId).toNat]? = some d ∧
      d.threadId = callerId ∧
      (∀ r c e, pte_osThreadWaitForEnd tl callerId threadHandle flags waitEnd fuel =
        some (r, c, e) → e = d.evid) ∧
      (flags 0 d.evid &&& PTHREAD_EVID_CANCEL ≠ 0 →
        pte_osThreadWaitForEnd tl callerId threadHandle flags waitEnd fuel =
          some (some PTE_OS_INTERRUPTED, 0, d.evid)) := by
  have hnneg : ¬ pspGetThreadIndex tl callerId < 0 := by omega
  obtain ⟨d, hd, hid⟩ := pspGetThreadIndex_spec tl callerId hreg
  refine ⟨d, hd, hid, ?_, ?_⟩
  · intro r c e he
    unfold pte_osThreadWaitForEnd at he
    simp only [if_neg hnneg, hd] at he
    injection he with he'
    have := congrArg (fun x : Option pte_osResult × Nat × Int => x.2.2) he'
    simpa using this.symm
  · intro hset
    unfold pte_osThreadWaitForEnd
    simp only [if_neg hnneg, hd]
    rw [waitForEndLoop_interrupted (fun i => flags i d.evid)
      (fun i => waitEnd threadHandle i) 0 0 fuel hfuel
      (fun j hj => absurd hj (Nat.not_lt_zero j))
      (fun j hj => absurd hj (Nat.not_lt_zero j))
      (by simpa using hset)]

/-- Witness for C10: thread 7 waits for thread 1 to end; the flag polled
is 11 — thread 7's own — and a pending cancellation interrupts the wait. -/
theorem C10_wait_polls_callers_signal_witness :
    0 ≤ pspGetThreadIndex tlTwoThreads 7 ∧ 0 < 1 ∧
    (∃ d, tlTwoThreads[(pspGetThreadIndex tlTwoThreads 7).toNat]? = some d ∧
      d.threadId = 7 ∧
      (∀ r c e, pte_osThreadWaitForEnd tlTwoThreads 7 1 (fun _ _ => 1) (fun _ _ => 0) 1 =
        some (r, c, e) → e = d.evid) ∧
      ((fun (_ : Nat) (_ : Int) => 1) 0 d.evid &&& PTHREAD_EVID_CANCEL ≠ 0 →
        pte_osThreadWaitForEnd tlTwoThreads 7 1 (fun _ _ => 1) (fun _ _ => 0) 1 =
          some (some PTE_OS_INTERRUPTED, 0, d.evid))) :=
  ⟨by decide, by decide,
   C10_wait_polls_callers_signal tlTwoThreads 7 1 (fun _ _ => 1) (fun _ _ => 0) 1
     (by decide) (by decide)⟩

/-! ## Thread cancel -/

/-- `pte_osThreadCancel`: set the cancellation bit on
`thread_list[pspGetThreadIndex(threadHandle)].evid`.  When the handle has
no registry entry, `pspGetThreadIndex` returns `-1` and the C code reads
`thread_list[-1]`, an out-of-bounds access (undefined behavior) modelled
as `none`.  `setFlagRes e` is the result of
`sceKernelSetEventFlag(e, PTHREAD_EVID_CANCEL)`. -/
def pte_osThreadCancel (tl : List pspThreadData) (setFlagRes : Int → Int)
    (threadHandle : Int) : Option pte_osResult :=
  let idx := pspGetThreadIndex tl threadHandle
  if idx < 0 then none
  else
    match tl[idx.toNat]? with
    | none => none
    | some d =>
      if setFlagRes d.evid < 0 then some PTE_OS_GENERAL_FAILURE
      else some PTE_OS_OK

/-- C5 (refuting the safety part of the claim): on a registry with no
entry for handle 42 — exactly the already-finished-thread situation,
every slot free — `pspGetThreadIndex` yields `-1` and
`pte_osThreadCancel` dereferences `thread_list[-1]`: an out-of-bounds
registry access (modelled as `none`), whatever the native signalling
outcome would be.  The claimed `PTE_OS_GENERAL_FAILURE` surfacing is
never reached on this path. -/
theorem C5_cancel_unregistered_oob :
    pspGetThreadIndex (List.replicate MAX_THREADS freeSlot) 42 = -1 ∧
    pte_osThreadCancel (List.replicate MAX_THREADS freeSlot) (fun _ => 0) 42 = none ∧
    pte_osThreadCancel (List.replicate MAX_THREADS freeSlot) (fun _ => -1) 42 = none := by
  refine ⟨by decide, by decide, by decide⟩

/-! ## Thread delete -/

/-- A snapshot of the shared state during `pte_osThreadDelete`: the
registry, the set of live (not yet destroyed) event-flag handles, and
whether the deleter holds the registry lock at that point. -/
structure RegSnap where
  tl : List pspThreadData
  liveFlags : List Int
  lockHeld : Bool

/-- `pte_osThreadDelete`, as its sequence of intermediate shared states:
look up the handle's slot (out of bounds and `none` if unregistered),
destroy the slot's event flag BEFORE taking the lock, then under the lock
clear `threadId`, `evid`, `entryPoint` and `argv` in that order, then
release the lock.  (`sceKernelDeleteThread` touches no registry state.) -/
def pte_osThreadDeleteTrace (tl : List pspThreadData) (live : List Int)
    (handle : Int) : Option (List RegSnap × pte_osResult) :=
  let idx := pspGetThreadIndex tl handle
  if idx < 0 then none
  else
    match tl[idx.toNat]? with
    | none => none
    | some d =>
      let i := idx.toNat
      let live1 := live.filter (fun e => e != d.evid)
      let d3 := { d with threadId := 0 }
      let d4 := { d3 with evid := 0 }
      let d5 := { d4 with entryPoint := 0 }
      let d6 := { d5 with argv := 0 }
      some ([⟨tl, live, false⟩,
             ⟨tl, live1, false⟩,
             ⟨tl, live1, true⟩,
             ⟨tl.set i d3, live1, true⟩,
             ⟨tl.set i d4, live1, true⟩,
             ⟨tl.set i d5, live1, true⟩,
             ⟨tl.set i d6, live1, true⟩,
             ⟨tl.set i d6, live1, false⟩], PTE_OS_OK)

/-- C9: deleting a registered handle leaves its slot fully free — the
slot's event flag is destroyed, and `threadId`, `evid`, `entryPoint` and
`argv` are all cleared, every other slot untouched — and all four fields
are cleared inside one registry-lock critical section, so in every state
in which the lock is not held the slot is observed as free
(`threadId = 0`) only with all other fields already cleared. -/
theorem C9_delete_frees_slot_under_lock (tl : List pspThreadData)
    (live : List Int) (handle : Int)
    (hreg : 0 ≤ pspGetThreadIndex tl handle) (hh : handle ≠ 0) :
    ∃ d tr,
      tl[(pspGetThreadIndex tl handle).toNat]? = some d ∧
      d.threadId = handle ∧
      pte_osThreadDeleteTrace tl live handle = some (tr, PTE_OS_OK) ∧
      (∃ sf, tr.getLast? = some sf ∧ sf.lockHeld = false ∧
        sf.tl[(pspGetThreadIndex tl handle).toNat]? = some freeSlot ∧
        (∀ j, j ≠ (pspGetThreadIndex tl handle).toNat → sf.tl[j]? = tl[j]?) ∧
        d.evid ∉ sf.liveFlags) ∧
      (∀ s ∈ tr, s.lockHeld = false →
        ∀ d', s.tl[(pspGetThreadIndex tl handle).toNat]? = some d' →
          d'.threadId = 0 → d' = freeSlot) := by
  have hnneg : ¬ pspGetThreadIndex tl handle < 0 := by omega
  obtain ⟨d, hd, hid⟩ := pspGetThreadIndex_spec tl handle hreg
  have hlt : (pspGetThreadIndex tl handle).toNat < tl.length :=
    (List.getElem?_eq_some.mp hd).1
  have htr : pte_osThreadDeleteTrace tl live handle = some
      ([⟨tl, live, false⟩,
        ⟨tl, live.filter (fun e => e != d.evid), false⟩,
        ⟨tl, live.filter (fun e => e != d.evid), true⟩,
        ⟨tl.set (pspGetThreadIndex tl handle).toNat { d with threadId := 0 },
          live.filter (fun e => e != d.evid), true⟩,
        ⟨tl.set (pspGetThreadIndex tl handle).toNat
            { d with threadId := 0, evid := 0 },
          live.filter (fun e => e != d.evid), true⟩,
        ⟨tl.set (pspGetThreadIndex tl handle).toNat
            { d with threadId := 0, evid := 0, entryPoint := 0 },
          live.filter (fun e => e != d.evid), true⟩,
        ⟨tl.set (pspGetThreadIndex tl handle).toNat freeSlot,
          live.filter (fun e => e != d.evid), true⟩,
        ⟨tl.set (pspGetThreadIndex tl handle).toNat freeSlot,
          live.filter (fun e => e != d.evid), false⟩], PTE_OS_OK) := by
    unfold pte_osThreadDeleteTrace
    rw [if_neg hnneg, hd]
    rfl
  refine ⟨d, _, hd, hid, htr,
    ⟨⟨tl.set (pspGetThreadIndex tl handle).toNat freeSlot,
      live.filter (fun e => e != d.evid), false⟩, rfl, rfl, ?_, ?_, ?_⟩, ?_⟩
  · exact List.getElem?_set_self hlt
  · intro j hj
    exact List.getElem?_set_ne (fun h => hj h.symm)
  · intro hmem
    rw [List.mem_filter] at hmem
    simpa using hmem.2
  · intro s hs hlock d' hd' h0
    simp only [List.mem_cons, List.not_mem_nil, or_false] at hs
    rcases hs with h | h | h | h | h | h | h | h
    · subst h
      rw [hd] at hd'
      injection hd' with he
      subst he
      exact absurd h0 (by rw [hid]; exact hh)
    · subst h
      rw [hd] at hd'
      injection hd' with he
      subst he
      exact absurd h0 (by rw [hid]; exact hh)
    · subst h; simp at hlock
    · subst h; simp at hlock
    · subst h; simp at hlock
    · subst h; simp at hlock
    · subst h; simp at hlock
    · subst h
      rw [List.getElem?_set_self hlt] at hd'
      injection hd' with he
      subst he
      rfl

/-- Witness for C9: deleting the registered thread 7 of `tlTwoThreads`
while its event flag 11 is live. -/
theorem C9_delete_frees_slot_under_lock_witness :
    0 ≤ pspGetThreadIndex tlTwoThreads 7 ∧ (7 : Int) ≠ 0 ∧
    (∃ d tr,
      tlTwoThreads[(pspGetThreadIndex tlTwoThreads 7).toNat]? = some d ∧
      d.threadId = 7 ∧
      pte_osThreadDeleteTrace tlTwoThreads [10, 11] 7 = some (tr, PTE_OS_OK) ∧
      (∃ sf, tr.getLast? = some sf ∧ sf.lockHeld = false ∧
        sf.tl[(pspGetThreadIndex tlTwoThreads 7).toNat]? = some freeSlot ∧
        (∀ j, j ≠ (pspGetThreadIndex tlTwoThreads 7).toNat → sf.tl[j]? = tlTwoThreads[j]?) ∧
        d.evid ∉ sf.liveFlags) ∧
      (∀ s ∈ tr, s.lockHeld = false →
        ∀ d', s.tl[(pspGetThreadIndex tlTwoThreads 7).toNat]? = some d' →
          d'.threadId = 0 → d' = freeSlot)) :=
  ⟨by decide, by decide,
   C9_delete_frees_slot_under_lock tlTwoThreads [10, 11] 7 (by decide) (by decide)⟩

/-! ## TLS slot allocator -/

def TLS_SLOT_START : Nat := 0x100

def TLS_SLOT_END : Nat := 0x200

/-- `pte_osTlsAlloc`: refuse once `_last_tls_key` has reached
`TLS_SLOT_END`, otherwise hand out the current cursor value and
post-increment it.  The state is the cursor `_last_tls_key`; the first
component is the `pte_osResult` and the value stored through `pKey`. -/
def pte_osTlsAlloc (key : Nat) : (pte_osResult × Option Nat) × Nat :=
  if TLS_SLOT_END ≤ key then ((PTE_OS_NO_RESOURCES, none), key)
  else ((PTE_OS_OK, some key), key + 1)

/-- `pte_osTlsFree`: a no-op that returns `PTE_OS_OK` (slots are never
reclaimed). -/
def pte_osTlsFree (_index : Nat) (key : Nat) : pte_osResult × Nat :=
  (PTE_OS_OK, key)

/-- An interleaved sequence of TLS allocator calls. -/
inductive TlsOp where
  | alloc
  | free (index : Nat)

/-- Run a sequence of allocator calls against cursor state `key`,
collecting the keys returned by the successful `pte_osTlsAlloc` calls in
order. -/
def tlsRun : List TlsOp → Nat → List Nat × Nat
  | [], key => ([], key)
  | TlsOp.alloc :: ops, key =>
    match pte_osTlsAlloc key with
    | ((_, some k), key') =>
      let r := tlsRun ops key'
      (k :: r.1, r.2)
    | ((_, none), key') => tlsRun ops key'
  | TlsOp.free i :: ops, key => tlsRun ops (pte_osTlsFree i key).2

theorem tlsRun_spec : ∀ (ops : List TlsOp) (s : Nat),
    List.Pairwise (· < ·) (tlsRun ops s).1 ∧
    (∀ k ∈ (tlsRun ops s).1, s ≤ k ∧ k < TLS_SLOT_END) ∧
    (tlsRun ops s).2 = s + (tlsRun ops s).1.length ∧
    (s ≤ TLS_SLOT_END → (tlsRun ops s).2 ≤ TLS_SLOT_END) := by
  intro ops
  induction ops with
  | nil => intro s; simp [tlsRun]
  | cons op rest ih =>
    intro s
    cases op with
    | alloc =>
      by_cases hend : TLS_SLOT_END ≤ s
      · have : pte_osTlsAlloc s = ((PTE_OS_NO_RESOURCES, none), s) := by
          unfold pte_osTlsAlloc
          rw [if_pos hend]
        simp only [tlsRun, this]
        exact ih s
      · have : pte_osTlsAlloc s = ((PTE_OS_OK, some s), s + 1) := by
          unfold pte_osTlsAlloc
          rw [if_neg hend]
        simp only [tlsRun, this]
        obtain ⟨hpw, hmem, hlen, hbd⟩ := ih (s + 1)
        refine ⟨?_, ?_, ?_, ?_⟩
        · exact List.Pairwise.cons (fun k hk => by
            have := (hmem k hk).1
            omega) hpw
        · intro k hk
          rcases List.mem_cons.mp hk with h | h
          · omega
          · have := hmem k h
            omega
        · simp only [List.length_cons]
          omega
        · intro _
          have := hbd (by omega)
          omega
    | free i =>
      simp only [tlsRun, pte_osTlsFree]
      exact ih s

/-- C7: over any interleaved sequence of `pte_osTlsAlloc`/`pte_osTlsFree`
calls starting from the initial cursor `0x100`, the successful
allocations return strictly increasing — hence pairwise distinct — keys,
all inside `[0x100, 0x200)`; the cursor always equals `0x100` plus the
number of successes, so at most 256 allocations ever succeed and after
256 successes the cursor sits at `0x200`; any call with the cursor at or
beyond `0x200` returns `PTE_OS_NO_RESOURCES` and does not advance the
cursor; and `pte_osTlsFree` never changes the cursor, so no key is ever
made available again. -/
theorem C7_tls_alloc_unique_monotonic (ops : List TlsOp) :
    List.Pairwise (· < ·) (tlsRun ops TLS_SLOT_START).1 ∧
    (tlsRun ops TLS_SLOT_START).1.Nodup ∧
    (∀ k ∈ (tlsRun ops TLS_SLOT_START).1,
      TLS_SLOT_START ≤ k ∧ k < TLS_SLOT_END) ∧
    (tlsRun ops TLS_SLOT_START).2 =
      TLS_SLOT_START + (tlsRun ops TLS_SLOT_START).1.length ∧
    (tlsRun ops TLS_SLOT_START).1.length ≤ 256 ∧
    (∀ s, TLS_SLOT_END ≤ s →
      pte_osTlsAlloc s = ((PTE_OS_NO_RESOURCES, none), s)) ∧
    (∀ i s, pte_osTlsFree i s = (PTE_OS_OK, s)) := by
  obtain ⟨hpw, hmem, hlen, hbd⟩ := tlsRun_spec ops TLS_SLOT_START
  refine ⟨hpw, hpw.imp Nat.ne_of_lt, hmem, hlen, ?_, ?_, fun i s => rfl⟩
  · have h1 := hbd (by unfold TLS_SLOT_START TLS_SLOT_END; omega)
    unfold TLS_SLOT_START TLS_SLOT_END at *
    omega
  · intro s hs
    unfold pte_osTlsAlloc
    rw [if_pos hs]

end VitaOsal
